import Mathlib

set_option maxHeartbeats 1000000

/-!
Shallow embedding of the Underground Empire (UE) core: the validator
registry (src/unnamed/part_004, package validator, plus the helpers in
src/unnamed/part_003, package types) and the in-memory consensus engine
(src/modules/consensus/consensus.go).

Modelling conventions:
* Go `uint64` values are modelled as `Nat`; an explicit `% U64` is inserted
  exactly where the Go program can overflow on reachable inputs, namely the
  stake sum (`totalStake += v.StakeAmount`) and the reward product
  (`stakeAmount * blockReward`) — a single registration call can supply a
  stake close to 2^64.  Stake subtraction in slashing cannot wrap because
  the slash amount is a quotient of the stake itself; heights and vote
  counts only grow by one per call and are modelled as plain `Nat`.
* Every call of Go `time.Now()` is modelled by an explicit `now : Nat`
  argument (a single argument per operation; the core never compares
  timestamps, it only stores them).
* Go string-typed enums (`ValidatorStatus`, `SlashReason`, `VoteType`) are
  kept as strings, matching the source's open string comparison (the slash
  switch has a default branch for unknown causes).
* The Go map `map[string]ValidatorNode` is modelled as an association list;
  insertion appends, update rewrites the entry in place.  The map iteration
  order in Go is unspecified; the only iteration the claims depend on is
  the active-stake sum, whose wrapped fold is order independent.
* Methods that mutate their receiver and return an `error` are modelled as
  functions returning `Option Err × NewState` (`none` = Go `nil` error);
  on the error paths the Go code leaves the receiver untouched, which the
  model expresses by returning the input state.
* The mutex in `ConsensusState` and the unused `valManager` field of the
  engine are dropped: the model is the sequential semantics of the
  lock-serialised operations.
-/

namespace UE

/-- 2^64, the modulus of Go `uint64` arithmetic. -/
def U64 : Nat := 2 ^ 64

/-- Constant `MinValidatorStake` from src/unnamed/part_003 (package types). -/
def MinValidatorStake : Nat := 28846

/-- Constant `ConsensusThreshold` from src/unnamed/part_003 (package types). -/
def ConsensusThreshold : Nat := 67

/-- Constant `blockReward := uint64(1000)` inside `CalculateRewards`
(src/unnamed/part_004). -/
def fixedBlockReward : Nat := 1000

/-- Go `types.Address` is `[20]byte`; modelled as an opaque byte list (no
claim inspects addresses). -/
structure Address where
  bytes : List UInt8
deriving DecidableEq, Repr

/-- The zero value `[20]byte{}`. -/
def Address.zero : Address := ⟨List.replicate 20 0⟩

/-- Go `types.CoinAmount`. -/
structure CoinAmount where
  Amount : Nat
  Denom : String
deriving DecidableEq, Repr

/-- Go `types.Transaction` (src/unnamed/part_003).  `Data`/`Signature` nil
slices are `[]`; `Timestamp` is `int64`. -/
structure Transaction where
  Hash : String
  From : Address
  To : Address
  Amount : CoinAmount
  Gas : Nat
  GasPrice : Nat
  Data : List UInt8
  Nonce : Nat
  Signature : List UInt8
  Timestamp : Int
deriving DecidableEq, Repr

/-- Go `types.VoteType` is a string type. -/
abbrev VoteType := String

/-- Constant `VoteTypePreVote` from src/unnamed/part_003. -/
def VoteTypePreVote : VoteType := "pre_vote"

/-- Constant `VoteTypePreCommit` from src/unnamed/part_003. -/
def VoteTypePreCommit : VoteType := "pre_commit"

/-- Go `types.Vote` (src/unnamed/part_003).  The source field `Type` is a
reserved word in Lean and is written `type` here. -/
structure Vote where
  ValidatorID : String
  BlockHash : String
  Timestamp : Nat
  type : VoteType
deriving DecidableEq, Repr

/-- Go `types.ConsensusData` (src/unnamed/part_003). -/
structure ConsensusData where
  PreVotes : List Vote
  PreCommits : List Vote
  Finalized : Bool
  FinalityTime : Nat
deriving DecidableEq, Repr

/-- The zero value `types.ConsensusData{}`. -/
def ConsensusData.empty : ConsensusData :=
  { PreVotes := [], PreCommits := [], Finalized := false, FinalityTime := 0 }

/-- Go `types.BlockData` (src/unnamed/part_001). -/
structure BlockData where
  Height : Nat
  Hash : String
  Timestamp : Nat
  Proposer : String
  Transactions : List Transaction
  Consensus : ConsensusData
deriving DecidableEq, Repr

/-- Go `validator.ValidatorStatus` is a string type. -/
abbrev ValidatorStatus := String

/-- Constant `ValidatorStatusActive` from src/unnamed/part_004. -/
def ValidatorStatusActive : ValidatorStatus := "active"

/-- Constant `ValidatorStatusInactive` from src/unnamed/part_004. -/
def ValidatorStatusInactive : ValidatorStatus := "inactive"

/-- Constant `ValidatorStatusSlashed` from src/unnamed/part_004. -/
def ValidatorStatusSlashed : ValidatorStatus := "slashed"

/-- Constant `ValidatorStatusJailed` from src/unnamed/part_004. -/
def ValidatorStatusJailed : ValidatorStatus := "jailed"

/-- Go `validator.SlashReason` is a string type; `calculateSlashAmount` has
a default branch for causes outside the four named constants. -/
abbrev SlashReason := String

/-- Constant `SlashReasonDoubleSigning` from src/unnamed/part_004. -/
def SlashReasonDoubleSigning : SlashReason := "double_signing"

/-- Constant `SlashReasonDowntime` from src/unnamed/part_004. -/
def SlashReasonDowntime : SlashReason := "downtime"

/-- Constant `SlashReasonInvalidBlock` from src/unnamed/part_004. -/
def SlashReasonInvalidBlock : SlashReason := "invalid_block"

/-- Constant `SlashReasonEquivocation` from src/unnamed/part_004. -/
def SlashReasonEquivocation : SlashReason := "equivocation"

/-- Go `validator.ValidatorNode` (src/unnamed/part_004). -/
structure ValidatorNode where
  ID : String
  Address : Address
  StakeAmount : Nat
  Status : ValidatorStatus
  Commission : Nat
  CreatedAt : Nat
  UpdatedAt : Nat
  Description : String
  Website : String
deriving DecidableEq, Repr

/-- Go `validator.SlashRecord` (src/unnamed/part_004).  The type is declared
in the source but never constructed: `SlashNode` maintains no slash
history, and `ValidatorManager` has no field that could hold one. -/
structure SlashRecord where
  ValidatorID : String
  Reason : SlashReason
  Amount : Nat
  Timestamp : Nat
  Height : Nat
deriving DecidableEq, Repr

/-- The distinguishable registry error messages of src/unnamed/part_004
(`fmt.Errorf` values). -/
inductive RegError where
  | insufficientStake (required got : Nat)
  | duplicateValidator (id : String)
  | validatorNotFound (id : String)
deriving DecidableEq, Repr

/-- Go `validator.ValidatorManager`: a map from node ID to node, modelled
as an association list with unique keys. -/
structure ValidatorManager where
  validators : List (String × ValidatorNode)
deriving DecidableEq, Repr

/-- `NewValidatorManager` (src/unnamed/part_004): empty map. -/
def NewValidatorManager : ValidatorManager := ⟨[]⟩

/-- `types.IsValidatorEligible` (src/unnamed/part_003):
`stakeAmount >= MinValidatorStake`. -/
def IsValidatorEligible (stakeAmount : Nat) : Bool :=
  MinValidatorStake ≤ stakeAmount

/-- `types.IsConsensusReached` (src/unnamed/part_003). -/
def IsConsensusReached (votes totalValidators : Nat) : Bool :=
  if totalValidators = 0 then false
  else ConsensusThreshold ≤ votes * 100 / totalValidators

/-- `types.CalculateValidatorReward` (src/unnamed/part_003):
`(stakeAmount * blockReward) / totalStake` in `uint64` arithmetic (the
product wraps modulo 2^64), with the `totalStake == 0` guard. -/
def CalculateValidatorReward (stakeAmount totalStake blockReward : Nat) : Nat :=
  if totalStake = 0 then 0
  else stakeAmount * blockReward % U64 / totalStake

/-- The node value stored by `RegisterNode` on success: timestamps stamped,
status forced to `active`. -/
def registeredNode (node : ValidatorNode) (now : Nat) : ValidatorNode :=
  { node with CreatedAt := now, UpdatedAt := now, Status := ValidatorStatusActive }

/-- `ValidatorManager.RegisterNode` (src/unnamed/part_004):
stake-eligibility check first, then the duplicate-ID check, then the insert. -/
def RegisterNode (vm : ValidatorManager) (node : ValidatorNode) (now : Nat) :
    Option RegError × ValidatorManager :=
  if ! IsValidatorEligible node.StakeAmount then
    (some (RegError.insufficientStake MinValidatorStake node.StakeAmount), vm)
  else if (vm.validators.find? (fun p => p.1 == node.ID)).isSome then
    (some (RegError.duplicateValidator node.ID), vm)
  else
    (none, ⟨vm.validators ++ [(node.ID, registeredNode node now)]⟩)

/-- `ValidatorManager.GetValidator` (src/unnamed/part_004). -/
def GetValidator (vm : ValidatorManager) (nodeID : String) :
    Except RegError ValidatorNode :=
  match vm.validators.find? (fun p => p.1 == nodeID) with
  | some p => Except.ok p.2
  | none => Except.error (RegError.validatorNotFound nodeID)

/-- `ValidatorManager.DeregisterNode` (src/unnamed/part_004): status to
`inactive`, timestamp updated, entry kept. -/
def DeregisterNode (vm : ValidatorManager) (nodeID : String) (now : Nat) :
    Option RegError × ValidatorManager :=
  match vm.validators.find? (fun p => p.1 == nodeID) with
  | none => (some (RegError.validatorNotFound nodeID), vm)
  | some p =>
      (none, ⟨vm.validators.map (fun q =>
        if q.1 == nodeID then
          (q.1, { p.2 with Status := ValidatorStatusInactive, UpdatedAt := now })
        else q)⟩)

/-- `ValidatorManager.GetActiveValidators` (src/unnamed/part_004). -/
def GetActiveValidators (vm : ValidatorManager) : List ValidatorNode :=
  (vm.validators.map (fun p => p.2)).filter
    (fun v => v.Status == ValidatorStatusActive)

/-- `ValidatorManager.GetTotalStake` (src/unnamed/part_004): the running
`uint64` sum of active stakes (each addition wraps modulo 2^64); the same
loop is inlined in `CalculateRewards`. -/
def GetTotalStake (vm : ValidatorManager) : Nat :=
  (GetActiveValidators vm).foldl (fun totalStake v => (totalStake + v.StakeAmount) % U64) 0

/-- `ValidatorManager.CalculateRewards` (src/unnamed/part_004): 0 for an
unknown ID, otherwise `CalculateValidatorReward` of the stake, the active
total and the fixed block reward 1000. -/
def CalculateRewards (vm : ValidatorManager) (nodeID : String) : Nat :=
  match GetValidator vm nodeID with
  | Except.error _ => 0
  | Except.ok validator =>
      CalculateValidatorReward validator.StakeAmount (GetTotalStake vm) fixedBlockReward

/-- `ValidatorManager.calculateSlashAmount` (src/unnamed/part_004), in the
source's switch order, with the default 10% branch. -/
def calculateSlashAmount (stakeAmount : Nat) (reason : SlashReason) : Nat :=
  if reason = SlashReasonDoubleSigning then stakeAmount / 2
  else if reason = SlashReasonDowntime then stakeAmount / 10
  else if reason = SlashReasonInvalidBlock then stakeAmount / 4
  else if reason = SlashReasonEquivocation then stakeAmount / 2
  else stakeAmount / 10

/-- The node value stored by `SlashNode` on success (src/unnamed/part_004
lines 294-305): status `slashed`, stake reduced by the slash amount, and
forced to 0 when the reduced stake is below `MinValidatorStake`.  The
subtraction cannot wrap: the slash amount is a quotient of the stake. -/
def slashValidator (validator : ValidatorNode) (reason : SlashReason) (now : Nat) :
    ValidatorNode :=
  let newStake := validator.StakeAmount - calculateSlashAmount validator.StakeAmount reason
  { validator with
      Status := ValidatorStatusSlashed,
      UpdatedAt := now,
      StakeAmount := if newStake < MinValidatorStake then 0 else newStake }

/-- `ValidatorManager.SlashNode` (src/unnamed/part_004): looks the node up,
stores the slashed node back under its key, and does nothing else — in
particular it appends nothing anywhere (there is no slash history). -/
def SlashNode (vm : ValidatorManager) (nodeID : String) (reason : SlashReason) (now : Nat) :
    Option RegError × ValidatorManager :=
  match GetValidator vm nodeID with
  | Except.error e => (some e, vm)
  | Except.ok validator =>
      (none, ⟨vm.validators.map (fun p =>
        if p.1 == nodeID then (p.1, slashValidator validator reason now) else p)⟩)

/-- The distinguishable consensus-engine error messages of
src/modules/consensus/consensus.go (`fmt.Errorf` values). -/
inductive ConsensusError where
  | noValidators
  | quorumNotReached (preCommits totalValidators : Nat)
deriving DecidableEq, Repr

/-- `consensus.ConsensusState` (src/modules/consensus/consensus.go); the
mutex is dropped (sequential model). -/
structure ConsensusState where
  CurrentHeight : Nat
  CurrentRound : Nat
  Validators : List ValidatorNode
  ProposerIndex : Nat
  Votes : List Vote
  FinalizedBlocks : List BlockData
deriving DecidableEq, Repr

/-- `NewInMemoryConsensusEngine` (consensus.go lines 41-53); the engine's
`valManager` field is never read by the four round operations and is
dropped. -/
def NewInMemoryConsensusEngine (initialValidators : List ValidatorNode) : ConsensusState :=
  { CurrentHeight := 1
    CurrentRound := 0
    Validators := initialValidators
    ProposerIndex := 0
    Votes := []
    FinalizedBlocks := [] }

/-- Fallback node for list indexing (Go would panic on an out-of-range
`ProposerIndex`; the index stays in range on every reachable state). -/
def emptyValidatorNode : ValidatorNode :=
  { ID := "", Address := Address.zero, StakeAmount := 0, Status := "",
    Commission := 0, CreatedAt := 0, UpdatedAt := 0, Description := "", Website := "" }

/-- The default transaction built inside `ProposeBlock` (consensus.go
lines 64-75). -/
def defaultBlockTx (now : Nat) : Transaction :=
  { Hash := "tx1", From := Address.zero, To := Address.zero,
    Amount := { Amount := 1, Denom := "ue" }, Gas := 21000, GasPrice := 1,
    Data := [], Nonce := 1, Signature := [], Timestamp := Int.ofNat now }

/-- `ProposeBlock` (consensus.go lines 56-86): reads the state and returns a
fresh block at the current height with hash `"block_" ++ height`; the state
is not modified. -/
def ProposeBlock (s : ConsensusState) (now : Nat) : Except ConsensusError BlockData :=
  if s.Validators.length = 0 then
    Except.error ConsensusError.noValidators
  else
    let proposer := s.Validators.getD s.ProposerIndex emptyValidatorNode
    Except.ok
      { Height := s.CurrentHeight
        Hash := "block_" ++ toString s.CurrentHeight
        Timestamp := now
        Proposer := proposer.ID
        Transactions := [defaultBlockTx now]
        Consensus := ConsensusData.empty }

/-- `PreVote` (consensus.go lines 89-104): appends one `pre_vote` vote per
validator in the snapshot, in snapshot order; always returns `nil` error. -/
def PreVote (s : ConsensusState) (block : BlockData) (now : Nat) :
    Option ConsensusError × ConsensusState :=
  (none, { s with Votes := s.Votes ++ s.Validators.map (fun v =>
    { ValidatorID := v.ID, BlockHash := block.Hash, Timestamp := now,
      type := VoteTypePreVote }) })

/-- `PreCommit` (consensus.go lines 107-122): appends one `pre_commit` vote
per validator in the snapshot, in snapshot order; always returns `nil`
error. -/
def PreCommit (s : ConsensusState) (block : BlockData) (now : Nat) :
    Option ConsensusError × ConsensusState :=
  (none, { s with Votes := s.Votes ++ s.Validators.map (fun v =>
    { ValidatorID := v.ID, BlockHash := block.Hash, Timestamp := now,
      type := VoteTypePreCommit }) })

/-- The pre-commit tally of `FinalizeBlock` (consensus.go lines 130-135):
votes whose hash matches the block and whose phase is `pre_commit`. -/
def countPreCommits (votes : List Vote) (blockHash : String) : Nat :=
  (votes.filter (fun v => v.BlockHash == blockHash && v.type == VoteTypePreCommit)).length

/-- `FinalizeBlock` (consensus.go lines 125-152).  Returns the error (Go
`nil` = `none`), the post state and the post block (the Go code mutates the
block through its pointer only on the success path). -/
def FinalizeBlock (s : ConsensusState) (block : BlockData) (now : Nat) :
    Option ConsensusError × ConsensusState × BlockData :=
  let totalValidators := s.Validators.length
  let preCommits := countPreCommits s.Votes block.Hash
  if totalValidators = 0 then
    (some ConsensusError.noValidators, s, block)
  else if ConsensusThreshold ≤ preCommits * 100 / totalValidators then
    let fb := { block with Consensus :=
      { block.Consensus with Finalized := true, FinalityTime := now } }
    (none,
      { s with
          FinalizedBlocks := s.FinalizedBlocks ++ [fb]
          CurrentHeight := s.CurrentHeight + 1
          ProposerIndex := (s.ProposerIndex + 1) % totalValidators
          Votes := [] },
      fb)
  else
    (some (ConsensusError.quorumNotReached preCommits totalValidators), s, block)

/-- One engine call, for stating properties of arbitrary call sequences. -/
inductive EngineOp where
  | propose (now : Nat)
  | prevote (block : BlockData) (now : Nat)
  | precommit (block : BlockData) (now : Nat)
  | finalize (block : BlockData) (now : Nat)
deriving DecidableEq, Repr

/-- The state transition of one engine call (`ProposeBlock` only reads the
state). -/
def step (s : ConsensusState) (op : EngineOp) : ConsensusState :=
  match op with
  | EngineOp.propose _ => s
  | EngineOp.prevote b now => (PreVote s b now).2
  | EngineOp.precommit b now => (PreCommit s b now).2
  | EngineOp.finalize b now => (FinalizeBlock s b now).2.1

/-- Run a sequence of engine calls. -/
def run (s : ConsensusState) (ops : List EngineOp) : ConsensusState :=
  ops.foldl step s

/-- Spec-side definition, following the specification's words for the
reward formula: the exact (unbounded) sum of the active stakes. -/
def specTotalActiveStake (vm : ValidatorManager) : Nat :=
  ((GetActiveValidators vm).map (fun v => v.StakeAmount)).sum

/-- Spec-side definition, following the specification's words:
`stake(id) * fixedBlockReward / totalActiveStake` under exact integer
(floor) division, 0 for an unknown ID or a zero total. -/
def specCalculateReward (vm : ValidatorManager) (nodeID : String) : Nat :=
  match GetValidator vm nodeID with
  | Except.error _ => 0
  | Except.ok v =>
      if specTotalActiveStake vm = 0 then 0
      else v.StakeAmount * fixedBlockReward / specTotalActiveStake vm

/-! Concrete fixtures (the three-validator scenario of the spec's example,
plus registry states used by the reward and slashing claims). -/

/-- A demo validator staked 30000 (above the 28846 minimum). -/
def demoValidator (i : String) : ValidatorNode :=
  { ID := i, Address := Address.zero, StakeAmount := 30000,
    Status := ValidatorStatusActive, Commission := 0, CreatedAt := 0,
    UpdatedAt := 0, Description := "", Website := "" }

/-- Fresh engine over three validators a, b, c. -/
def s3 : ConsensusState :=
  NewInMemoryConsensusEngine [demoValidator "a", demoValidator "b", demoValidator "c"]

/-- The block `ProposeBlock s3 0` returns (height 1, hash block_1). -/
def blkA : BlockData :=
  { Height := 1, Hash := "block_1", Timestamp := 0, Proposer := "a",
    Transactions := [defaultBlockTx 0], Consensus := ConsensusData.empty }

/-- The block a second `ProposeBlock` call at the same height returns at a
later wall-clock time (`now = 1`): a distinct block with the same hash. -/
def blkB : BlockData :=
  { Height := 1, Hash := "block_1", Timestamp := 1, Proposer := "a",
    Transactions := [defaultBlockTx 1], Consensus := ConsensusData.empty }

/-- One pre-commit vote for hash block_1 by validator i. -/
def pcVote (i : String) : Vote :=
  { ValidatorID := i, BlockHash := "block_1", Timestamp := 0,
    type := VoteTypePreCommit }

/-- Engine state with 2 of 3 pre-commits for block_1 (66% after
truncation). -/
def sPC2 : ConsensusState := { s3 with Votes := [pcVote "a", pcVote "b"] }

/-- Engine state with 3 of 3 pre-commits for block_1 (100%). -/
def sPC3 : ConsensusState := { s3 with Votes := [pcVote "a", pcVote "b", pcVote "c"] }

/-- The engine state after all three validators pre-commit blkA. -/
def sVotedA : ConsensusState := (PreCommit s3 blkA 0).2

/-! Theorems. -/

/-- C10: PreVote and PreCommit never fail: for every engine state and every
block argument (including a stale-height block and an empty validator
snapshot) they return no error and append exactly one vote per validator in
the snapshot — carrying that validator's ID, the argument block's hash, and
phase pre_vote resp. pre_commit — to the outstanding vote sequence, changing
nothing else in the state. -/
theorem C10_prevote_precommit_append (s : ConsensusState) (b : BlockData) (now : Nat) :
    (PreVote s b now).1 = none
    ∧ (PreCommit s b now).1 = none
    ∧ (PreVote s b now).2.Votes
        = s.Votes ++ s.Validators.map (fun v =>
            { ValidatorID := v.ID, BlockHash := b.Hash, Timestamp := now,
              type := VoteTypePreVote })
    ∧ (PreCommit s b now).2.Votes
        = s.Votes ++ s.Validators.map (fun v =>
            { ValidatorID := v.ID, BlockHash := b.Hash, Timestamp := now,
              type := VoteTypePreCommit })
    ∧ (PreVote s b now).2.Votes.length = s.Votes.length + s.Validators.length
    ∧ (PreCommit s b now).2.Votes.length = s.Votes.length + s.Validators.length
    ∧ (PreVote s b now).2.CurrentHeight = s.CurrentHeight
    ∧ (PreVote s b now).2.CurrentRound = s.CurrentRound
    ∧ (PreVote s b now).2.Validators = s.Validators
    ∧ (PreVote s b now).2.ProposerIndex = s.ProposerIndex
    ∧ (PreVote s b now).2.FinalizedBlocks = s.FinalizedBlocks
    ∧ (PreCommit s b now).2.CurrentHeight = s.CurrentHeight
    ∧ (PreCommit s b now).2.CurrentRound = s.CurrentRound
    ∧ (PreCommit s b now).2.Validators = s.Validators
    ∧ (PreCommit s b now).2.ProposerIndex = s.ProposerIndex
    ∧ (PreCommit s b now).2.FinalizedBlocks = s.FinalizedBlocks := by
  refine ⟨rfl, rfl, rfl, rfl, ?_, ?_, rfl, rfl, rfl, rfl, rfl, rfl, rfl, rfl, rfl, rfl⟩
  · simp [PreVote]
  · simp [PreCommit]

/-- C1: with a non-empty validator snapshot, FinalizeBlock succeeds if and
only if the number of pre-commit votes for the block's hash, times 100 and
divided (truncating) by the validator count, is at least the consensus
threshold 67; below the threshold it fails with the quorum-not-reached
error carrying the tally.  The success condition coincides with the
source's IsConsensusReached helper. -/
theorem C1_finalizeBlock_quorum_iff (s : ConsensusState) (b : BlockData) (now : Nat)
    (h : 0 < s.Validators.length) :
    (((FinalizeBlock s b now).1 = none) ↔
      67 ≤ countPreCommits s.Votes b.Hash * 100 / s.Validators.length)
    ∧ (((FinalizeBlock s b now).1 = none) ↔
      IsConsensusReached (countPreCommits s.Votes b.Hash) s.Validators.length = true)
    ∧ (countPreCommits s.Votes b.Hash * 100 / s.Validators.length < 67 →
        (FinalizeBlock s b now).1
          = some (ConsensusError.quorumNotReached
              (countPreCommits s.Votes b.Hash) s.Validators.length)) := by
  have h0 : ¬ s.Validators.length = 0 := Nat.pos_iff_ne_zero.mp h
  by_cases hq : ConsensusThreshold ≤ countPreCommits s.Votes b.Hash * 100 / s.Validators.length
  · have hq67 : 67 ≤ countPreCommits s.Votes b.Hash * 100 / s.Validators.length := hq
    refine ⟨?_, ?_, ?_⟩
    · simp [FinalizeBlock, h0, hq, hq67]
    · simp [FinalizeBlock, IsConsensusReached, h0, hq, hq67, ConsensusThreshold]
    · intro hlt
      exact absurd hq67 (Nat.not_le.mpr hlt)
  · have hq67 : ¬ 67 ≤ countPreCommits s.Votes b.Hash * 100 / s.Validators.length := hq
    refine ⟨?_, ?_, ?_⟩
    · simp [FinalizeBlock, h0, hq, hq67]
    · simp [FinalizeBlock, IsConsensusReached, h0, hq, hq67, ConsensusThreshold]
    · intro _
      simp [FinalizeBlock, h0, hq]

/-- C1 witness: the theorem at the two boundary states of the claim — 2 of
3 pre-commits (66 after truncation) fail with the quorum error, 3 of 3
(100) succeed. -/
theorem C1_witness :
    ((((FinalizeBlock sPC2 blkA 0).1 = none) ↔
        67 ≤ countPreCommits sPC2.Votes blkA.Hash * 100 / sPC2.Validators.length)
      ∧ (((FinalizeBlock sPC2 blkA 0).1 = none) ↔
        IsConsensusReached (countPreCommits sPC2.Votes blkA.Hash) sPC2.Validators.length = true)
      ∧ (countPreCommits sPC2.Votes blkA.Hash * 100 / sPC2.Validators.length < 67 →
          (FinalizeBlock sPC2 blkA 0).1
            = some (ConsensusError.quorumNotReached
                (countPreCommits sPC2.Votes blkA.Hash) sPC2.Validators.length)))
    ∧ (FinalizeBlock sPC2 blkA 0).1 = some (ConsensusError.quorumNotReached 2 3)
    ∧ (FinalizeBlock sPC3 blkA 0).1 = none :=
  ⟨C1_finalizeBlock_quorum_iff sPC2 blkA 0 (by decide), by decide, by decide⟩

/-- C7: when FinalizeBlock fails with the quorum-not-reached error, the
whole consensus state is unchanged (votes not cleared, height, proposer
index and finalized history kept) and the block is returned untouched, so
its finalized flag keeps its value. -/
theorem C7_quorum_failure_state_unchanged (s : ConsensusState) (b : BlockData)
    (now p t : Nat)
    (h : (FinalizeBlock s b now).1 = some (ConsensusError.quorumNotReached p t)) :
    (FinalizeBlock s b now).2.1 = s
    ∧ (FinalizeBlock s b now).2.2 = b
    ∧ (FinalizeBlock s b now).2.1.Votes = s.Votes
    ∧ (FinalizeBlock s b now).2.1.CurrentHeight = s.CurrentHeight
    ∧ (FinalizeBlock s b now).2.1.ProposerIndex = s.ProposerIndex
    ∧ (FinalizeBlock s b now).2.1.FinalizedBlocks = s.FinalizedBlocks
    ∧ (FinalizeBlock s b now).2.2.Consensus.Finalized = b.Consensus.Finalized := by
  by_cases h0 : s.Validators.length = 0
  · simp [FinalizeBlock, h0] at h
  · by_cases hq : ConsensusThreshold ≤ countPreCommits s.Votes b.Hash * 100 / s.Validators.length
    · simp [FinalizeBlock, h0, hq] at h
    · simp [FinalizeBlock, h0, hq]

/-- Helper: one engine call never decreases the height (propose reads only,
the vote phases keep every field but the vote list, finalize either fails
leaving the state or increments the height). -/
theorem step_height_le (s : ConsensusState) (op : EngineOp) :
    s.CurrentHeight ≤ (step s op).CurrentHeight := by
  cases op with
  | propose now => exact Nat.le_refl _
  | prevote b now => exact Nat.le_of_eq rfl
  | precommit b now => exact Nat.le_of_eq rfl
  | finalize b now =>
      simp only [step]
      by_cases h0 : s.Validators.length = 0
      · simp [FinalizeBlock, h0]
      · by_cases hq : ConsensusThreshold ≤
            countPreCommits s.Votes b.Hash * 100 / s.Validators.length
        · simp [FinalizeBlock, h0, hq]
        · simp [FinalizeBlock, h0, hq]

/-- Helper: unfolding one call of `run`. -/
theorem run_cons (s : ConsensusState) (op : EngineOp) (ops : List EngineOp) :
    run s (op :: ops) = run (step s op) ops := rfl

/-- Helper: the height never decreases across any call sequence. -/
theorem run_height_le (s : ConsensusState) (ops : List EngineOp) :
    s.CurrentHeight ≤ (run s ops).CurrentHeight := by
  induction ops generalizing s with
  | nil => exact Nat.le_refl _
  | cons op rest ih =>
      calc s.CurrentHeight ≤ (step s op).CurrentHeight := step_height_le s op
        _ ≤ (run (step s op) rest).CurrentHeight := ih (step s op)

/-- C2: CurrentHeight starts at 1 at construction and never decreases over
any sequence of engine calls; a successful FinalizeBlock increments it by
exactly 1, advances ProposerIndex cyclically, appends the finalized block
to the history and clears the vote sequence; ProposeBlock, the vote phases
and a failing FinalizeBlock leave the height unchanged (a failing
FinalizeBlock leaves the whole state unchanged). -/
theorem C2_height_monotone_and_advance :
    (∀ vs : List ValidatorNode, (NewInMemoryConsensusEngine vs).CurrentHeight = 1)
    ∧ (∀ (s : ConsensusState) (ops : List EngineOp),
        s.CurrentHeight ≤ (run s ops).CurrentHeight)
    ∧ (∀ (s : ConsensusState) (b : BlockData) (now : Nat),
        (FinalizeBlock s b now).1 = none →
          (FinalizeBlock s b now).2.1.CurrentHeight = s.CurrentHeight + 1
          ∧ (FinalizeBlock s b now).2.1.ProposerIndex
              = (s.ProposerIndex + 1) % s.Validators.length
          ∧ (FinalizeBlock s b now).2.1.FinalizedBlocks
              = s.FinalizedBlocks ++ [(FinalizeBlock s b now).2.2]
          ∧ (FinalizeBlock s b now).2.1.Votes = [])
    ∧ (∀ (s : ConsensusState) (b : BlockData) (now : Nat),
        (FinalizeBlock s b now).1 ≠ none → (FinalizeBlock s b now).2.1 = s)
    ∧ (∀ (s : ConsensusState) (now : Nat), step s (EngineOp.propose now) = s)
    ∧ (∀ (s : ConsensusState) (b : BlockData) (now : Nat),
        (PreVote s b now).2.CurrentHeight = s.CurrentHeight
        ∧ (PreCommit s b now).2.CurrentHeight = s.CurrentHeight) := by
  refine ⟨fun vs => rfl, run_height_le, ?_, ?_, fun s now => rfl, fun s b now => ⟨rfl, rfl⟩⟩
  · intro s b now h
    by_cases h0 : s.Validators.length = 0
    · simp [FinalizeBlock, h0] at h
    · by_cases hq : ConsensusThreshold ≤
          countPreCommits s.Votes b.Hash * 100 / s.Validators.length
      · simp [FinalizeBlock, h0, hq]
      · simp [FinalizeBlock, h0, hq] at h
  · intro s b now h
    by_cases h0 : s.Validators.length = 0
    · simp [FinalizeBlock, h0]
    · by_cases hq : ConsensusThreshold ≤
          countPreCommits s.Votes b.Hash * 100 / s.Validators.length
      · simp [FinalizeBlock, h0, hq] at h
      · simp [FinalizeBlock, h0, hq]

/-- C2 witness: the theorem's success clause at the 3-of-3 pre-commit
state: the height advances from 1 to 2, the proposer index from 0 to 1,
the block lands in the history and the votes are cleared. -/
theorem C2_witness :
    (FinalizeBlock sPC3 blkA 0).2.1.CurrentHeight = sPC3.CurrentHeight + 1
    ∧ (FinalizeBlock sPC3 blkA 0).2.1.ProposerIndex
        = (sPC3.ProposerIndex + 1) % sPC3.Validators.length
    ∧ (FinalizeBlock sPC3 blkA 0).2.1.FinalizedBlocks
        = sPC3.FinalizedBlocks ++ [(FinalizeBlock sPC3 blkA 0).2.2]
    ∧ (FinalizeBlock sPC3 blkA 0).2.1.Votes = [] :=
  C2_height_monotone_and_advance.2.2.1 sPC3 blkA 0 (by decide)

/-- C7 witness: the theorem at the 2-of-3 pre-commit state, where the
quorum error is returned. -/
theorem C7_witness :
    (FinalizeBlock sPC2 blkA 0).2.1 = sPC2
    ∧ (FinalizeBlock sPC2 blkA 0).2.2 = blkA
    ∧ (FinalizeBlock sPC2 blkA 0).2.1.Votes = sPC2.Votes
    ∧ (FinalizeBlock sPC2 blkA 0).2.1.CurrentHeight = sPC2.CurrentHeight
    ∧ (FinalizeBlock sPC2 blkA 0).2.1.ProposerIndex = sPC2.ProposerIndex
    ∧ (FinalizeBlock sPC2 blkA 0).2.1.FinalizedBlocks = sPC2.FinalizedBlocks
    ∧ (FinalizeBlock sPC2 blkA 0).2.2.Consensus.Finalized = blkA.Consensus.Finalized :=
  C7_quorum_failure_state_unchanged sPC2 blkA 0 2 3 (by decide)

/-- C4 counterexample: two ProposeBlock calls at the same height (no
finalization in between) return distinct blocks with the SAME hash — the
hash is derived from the height alone — and the three stale pre-commits
recorded for the first block are counted by FinalizeBlock toward the
second, which finalizes although nobody ever voted for it. -/
theorem C4_counterexample :
    ProposeBlock s3 0 = Except.ok blkA
    ∧ ProposeBlock s3 1 = Except.ok blkB
    ∧ blkA ≠ blkB
    ∧ blkA.Hash = blkB.Hash
    ∧ countPreCommits sVotedA.Votes blkB.Hash = 3
    ∧ (FinalizeBlock sVotedA blkB 2).1 = none := by
  refine ⟨rfl, rfl, by decide, rfl, by decide, by decide⟩

/-- Helper: a block returned by ProposeBlock carries the hash derived from
the proposing state's current height. -/
theorem proposeBlock_hash (s : ConsensusState) (now : Nat) (b : BlockData)
    (h : ProposeBlock s now = Except.ok b) :
    b.Hash = "block_" ++ toString s.CurrentHeight := by
  by_cases h0 : s.Validators.length = 0
  · simp [ProposeBlock, h0] at h
  · unfold ProposeBlock at h
    rw [if_neg h0] at h
    injection h with h
    rw [← h]

/-- Helper: FinalizeBlock's outcome depends on the block only through its
hash (the tally matches votes by hash). -/
theorem finalizeBlock_outcome_hash_only (s : ConsensusState) (b1 b2 : BlockData)
    (now : Nat) (hw : b1.Hash = b2.Hash) :
    (FinalizeBlock s b1 now).1 = (FinalizeBlock s b2 now).1 := by
  have hc : countPreCommits s.Votes b1.Hash = countPreCommits s.Votes b2.Hash := by
    rw [hw]
  by_cases h0 : s.Validators.length = 0
  · simp [FinalizeBlock, h0]
  · by_cases hq : ConsensusThreshold ≤
        countPreCommits s.Votes b1.Hash * 100 / s.Validators.length
    · simp [FinalizeBlock, h0, hq, hc ▸ hq]
    · have hq2 : ¬ ConsensusThreshold ≤
          countPreCommits s.Votes b2.Hash * 100 / s.Validators.length := hc ▸ hq
      simp [FinalizeBlock, h0, hq, hq2, hc]

/-- C4 amended: the hash ProposeBlock derives depends only on the current
height, so any two blocks proposed at the same height carry the SAME hash
(they never differ), and FinalizeBlock — which tallies votes by hash —
gives both blocks identical outcomes: stale pre-commits recorded for an
earlier proposal at the height are always counted toward a later proposal
at the same height. -/
theorem C4_same_height_hash_collision (s1 s2 : ConsensusState) (n1 n2 : Nat)
    (b1 b2 : BlockData)
    (hh : s1.CurrentHeight = s2.CurrentHeight)
    (h1 : ProposeBlock s1 n1 = Except.ok b1)
    (h2 : ProposeBlock s2 n2 = Except.ok b2) :
    b1.Hash = b2.Hash
    ∧ ∀ (s : ConsensusState) (now : Nat),
        (FinalizeBlock s b1 now).1 = (FinalizeBlock s b2 now).1 := by
  have hw : b1.Hash = b2.Hash := by
    rw [proposeBlock_hash s1 n1 b1 h1, proposeBlock_hash s2 n2 b2 h2, hh]
  exact ⟨hw, fun s now => finalizeBlock_outcome_hash_only s b1 b2 now hw⟩

/-- C4 witness: the amended theorem at the two concrete proposals of the
counterexample state, including the identical finalization outcome on the
stale-vote state. -/
theorem C4_witness :
    blkA.Hash = blkB.Hash
    ∧ (FinalizeBlock sVotedA blkA 2).1 = (FinalizeBlock sVotedA blkB 2).1 :=
  ⟨(C4_same_height_hash_collision s3 s3 0 1 blkA blkB rfl rfl rfl).1,
   (C4_same_height_hash_collision s3 s3 0 1 blkA blkB rfl rfl rfl).2 sVotedA 2⟩

/-- A registered validator staked 100000, used by the registry claims. -/
def nodeV1 : ValidatorNode :=
  { ID := "v1", Address := Address.zero, StakeAmount := 100000,
    Status := ValidatorStatusActive, Commission := 0, CreatedAt := 0,
    UpdatedAt := 0, Description := "", Website := "" }

/-- A registry holding exactly nodeV1. -/
def vmOne : ValidatorManager := ⟨[("v1", nodeV1)]⟩

/-- A candidate below the minimum stake. -/
def poorNode : ValidatorNode :=
  { ID := "poor", Address := Address.zero, StakeAmount := 100,
    Status := ValidatorStatusActive, Commission := 0, CreatedAt := 0,
    UpdatedAt := 0, Description := "", Website := "" }

/-- C6: register succeeds exactly when the stake meets MinValidatorStake
and the ID is fresh; a stake below the minimum yields the
insufficient-stake error (checked first, for every such stake), an existing
ID with sufficient stake yields the duplicate error; every failure leaves
the registry mapping untouched, and every success appends exactly one
entry, stored with status active. -/
theorem C6_register_iff_eligible_and_fresh (vm : ValidatorManager)
    (node : ValidatorNode) (now : Nat) :
    ((RegisterNode vm node now).1 = none ↔
      (MinValidatorStake ≤ node.StakeAmount
        ∧ vm.validators.find? (fun p => p.1 == node.ID) = none))
    ∧ (node.StakeAmount < MinValidatorStake →
        (RegisterNode vm node now).1
          = some (RegError.insufficientStake MinValidatorStake node.StakeAmount))
    ∧ (MinValidatorStake ≤ node.StakeAmount →
        ∀ q, vm.validators.find? (fun p => p.1 == node.ID) = some q →
          (RegisterNode vm node now).1 = some (RegError.duplicateValidator node.ID))
    ∧ ((RegisterNode vm node now).1 ≠ none → (RegisterNode vm node now).2 = vm)
    ∧ ((RegisterNode vm node now).1 = none →
        (RegisterNode vm node now).2.validators
            = vm.validators ++ [(node.ID, registeredNode node now)]
        ∧ (RegisterNode vm node now).2.validators.length = vm.validators.length + 1
        ∧ (registeredNode node now).Status = ValidatorStatusActive) := by
  by_cases he : MinValidatorStake ≤ node.StakeAmount
  · cases hf : vm.validators.find? (fun p => p.1 == node.ID) with
    | none =>
        refine ⟨?_, ?_, ?_, ?_, ?_⟩
        · simp [RegisterNode, IsValidatorEligible, he, hf]
        · intro hlt; exact absurd he (Nat.not_le.mpr hlt)
        · intro _ q hq
          simp [hf] at hq
        · intro hne
          exact absurd (by simp [RegisterNode, IsValidatorEligible, he, hf]) hne
        · intro _
          refine ⟨?_, ?_, rfl⟩
          · simp [RegisterNode, IsValidatorEligible, he, hf]
          · simp [RegisterNode, IsValidatorEligible, he, hf]
    | some q =>
        refine ⟨?_, ?_, ?_, ?_, ?_⟩
        · simp [RegisterNode, IsValidatorEligible, he, hf]
        · intro hlt; exact absurd he (Nat.not_le.mpr hlt)
        · intro _ q2 _; simp [RegisterNode, IsValidatorEligible, he, hf]
        · intro _; simp [RegisterNode, IsValidatorEligible, he, hf]
        · intro hnone
          have : ¬ (RegisterNode vm node now).1 = none := by
            simp [RegisterNode, IsValidatorEligible, he, hf]
          exact absurd hnone this
  · refine ⟨?_, ?_, ?_, ?_, ?_⟩
    · simp [RegisterNode, IsValidatorEligible, he]
    · intro _; simp [RegisterNode, IsValidatorEligible, he]
    · intro habs; exact absurd habs he
    · intro _; simp [RegisterNode, IsValidatorEligible, he]
    · intro hnone
      have : ¬ (RegisterNode vm node now).1 = none := by
        simp [RegisterNode, IsValidatorEligible, he]
      exact absurd hnone this

/-- C6 witness: the theorem at a one-entry registry — a fresh 30000-stake
candidate registers and appends exactly one active entry, a 100-stake
candidate gets the insufficient-stake error with the registry unchanged,
and re-registering the existing ID gets the duplicate error. -/
theorem C6_witness :
    ((RegisterNode vmOne (demoValidator "new") 3).2.validators
        = vmOne.validators
            ++ [((demoValidator "new").ID, registeredNode (demoValidator "new") 3)]
      ∧ (RegisterNode vmOne (demoValidator "new") 3).2.validators.length
          = vmOne.validators.length + 1
      ∧ (registeredNode (demoValidator "new") 3).Status = ValidatorStatusActive)
    ∧ (RegisterNode vmOne poorNode 3).1
        = some (RegError.insufficientStake MinValidatorStake poorNode.StakeAmount)
    ∧ (RegisterNode vmOne nodeV1 3).1 = some (RegError.duplicateValidator nodeV1.ID)
    ∧ (RegisterNode vmOne poorNode 3).2 = vmOne :=
  ⟨(C6_register_iff_eligible_and_fresh vmOne (demoValidator "new") 3).2.2.2.2 (by decide),
   (C6_register_iff_eligible_and_fresh vmOne poorNode 3).2.1 (by decide),
   (C6_register_iff_eligible_and_fresh vmOne nodeV1 3).2.2.1 (by decide)
     ("v1", nodeV1) rfl,
   (C6_register_iff_eligible_and_fresh vmOne poorNode 3).2.2.2.1 (by decide)⟩

/-- Helper: looking a key up after rewriting that key's entries in place
finds the rewritten value. -/
theorem find?_map_keyed (l : List (String × ValidatorNode)) (id : String)
    (w : ValidatorNode) :
    (l.map (fun p => if p.1 == id then (p.1, w) else p)).find? (fun p => p.1 == id)
      = (l.find? (fun p => p.1 == id)).map (fun p => (p.1, w)) := by
  induction l with
  | nil => rfl
  | cons a rest ih =>
      by_cases h : (a.1 == id) = true
      · rw [List.map_cons, if_pos h]
        have e1 : ((a.1, w) :: rest.map (fun p => if p.1 == id then (p.1, w) else p)).find?
            (fun p => p.1 == id) = some (a.1, w) :=
          @List.find?_cons_of_pos _ (fun p => p.1 == id) (a.1, w) _ h
        have e2 : (a :: rest).find? (fun p => p.1 == id) = some a :=
          @List.find?_cons_of_pos _ (fun p => p.1 == id) a rest h
        rw [e1, e2]
        rfl
      · rw [List.map_cons, if_neg h]
        have e1 : (a :: rest.map (fun p => if p.1 == id then (p.1, w) else p)).find?
              (fun p => p.1 == id)
            = (rest.map (fun p => if p.1 == id then (p.1, w) else p)).find?
              (fun p => p.1 == id) :=
          @List.find?_cons_of_neg _ (fun p => p.1 == id) a _ h
        have e2 : (a :: rest).find? (fun p => p.1 == id) = rest.find? (fun p => p.1 == id) :=
          @List.find?_cons_of_neg _ (fun p => p.1 == id) a rest h
        rw [e1, e2, ih]

/-- Helper: rewriting the entries of one key in place does not change the
lookup of any other key. -/
theorem find?_map_keyed_ne (l : List (String × ValidatorNode)) (id id2 : String)
    (w : ValidatorNode) (hne : id2 ≠ id) :
    (l.map (fun p => if p.1 == id then (p.1, w) else p)).find? (fun p => p.1 == id2)
      = l.find? (fun p => p.1 == id2) := by
  induction l with
  | nil => rfl
  | cons a rest ih =>
      by_cases h : (a.1 == id) = true
      · have ha : a.1 = id := eq_of_beq h
        have h2 : ¬ (a.1 == id2) = true := by
          intro hb
          exact hne ((eq_of_beq hb).symm.trans ha)
        rw [List.map_cons, if_pos h]
        have e1 : ((a.1, w) :: rest.map (fun p => if p.1 == id then (p.1, w) else p)).find?
              (fun p => p.1 == id2)
            = (rest.map (fun p => if p.1 == id then (p.1, w) else p)).find?
              (fun p => p.1 == id2) :=
          @List.find?_cons_of_neg _ (fun p => p.1 == id2) (a.1, w) _ h2
        have e2 : (a :: rest).find? (fun p => p.1 == id2) = rest.find? (fun p => p.1 == id2) :=
          @List.find?_cons_of_neg _ (fun p => p.1 == id2) a rest h2
        rw [e1, e2, ih]
      · rw [List.map_cons, if_neg h]
        by_cases h2 : (a.1 == id2) = true
        · have e1 : (a :: rest.map (fun p => if p.1 == id then (p.1, w) else p)).find?
              (fun p => p.1 == id2) = some a :=
            @List.find?_cons_of_pos _ (fun p => p.1 == id2) a _ h2
          have e2 : (a :: rest).find? (fun p => p.1 == id2) = some a :=
            @List.find?_cons_of_pos _ (fun p => p.1 == id2) a rest h2
          rw [e1, e2]
        · have e1 : (a :: rest.map (fun p => if p.1 == id then (p.1, w) else p)).find?
                (fun p => p.1 == id2)
              = (rest.map (fun p => if p.1 == id then (p.1, w) else p)).find?
                (fun p => p.1 == id2) :=
            @List.find?_cons_of_neg _ (fun p => p.1 == id2) a _ h2
          have e2 : (a :: rest).find? (fun p => p.1 == id2) = rest.find? (fun p => p.1 == id2) :=
            @List.find?_cons_of_neg _ (fun p => p.1 == id2) a rest h2
          rw [e1, e2, ih]

/-- Helper: a successful SlashNode stores the slashed node under the key
and changes no other lookup and no map size. -/
theorem slashNode_ok_lookup (vm : ValidatorManager) (id : String)
    (reason : SlashReason) (now : Nat) (node : ValidatorNode)
    (h : GetValidator vm id = Except.ok node) :
    (SlashNode vm id reason now).1 = none
    ∧ (SlashNode vm id reason now).2.validators
        = vm.validators.map (fun p =>
            if p.1 == id then (p.1, slashValidator node reason now) else p)
    ∧ GetValidator (SlashNode vm id reason now).2 id
        = Except.ok (slashValidator node reason now)
    ∧ (∀ id2, id2 ≠ id →
        GetValidator (SlashNode vm id reason now).2 id2 = GetValidator vm id2)
    ∧ (SlashNode vm id reason now).2.validators.length = vm.validators.length := by
  cases hf : vm.validators.find? (fun p => p.1 == id) with
  | none =>
      unfold GetValidator at h
      rw [hf] at h
      cases h
  | some p =>
      have hsn : SlashNode vm id reason now
          = (none, ⟨vm.validators.map (fun q =>
              if q.1 == id then (q.1, slashValidator node reason now) else q)⟩) := by
        simp [SlashNode, h]
      refine ⟨by rw [hsn], by rw [hsn], ?_, ?_, by rw [hsn]; simp⟩
      · rw [hsn]
        unfold GetValidator
        simp only
        rw [find?_map_keyed, hf]
        rfl
      · intro id2 hne
        rw [hsn]
        unfold GetValidator
        simp only
        rw [find?_map_keyed_ne vm.validators id id2 _ hne]

/-- C3 counterexample: slashing the sole registered validator (stake
100000, cause downtime, wall-clock 7) succeeds and the COMPLETE resulting
manager state is just the validator mapping with the one slashed entry —
no SlashRecord exists anywhere in the state (the manager has no history
component; the source declares SlashRecord but never constructs one), so
the claimed append of exactly one SlashRecord does not happen. -/
theorem C3_counterexample :
    SlashNode vmOne "v1" SlashReasonDowntime 7
      = (none,
         ⟨[("v1",
            { ID := "v1", Address := Address.zero, StakeAmount := 90000,
              Status := ValidatorStatusSlashed, Commission := 0, CreatedAt := 0,
              UpdatedAt := 7, Description := "", Website := "" })]⟩) := by
  decide

/-- C3 amended: for every registered validator id and every cause, a
successful slash rewrites exactly that validator's registry entry to the
slashed node (status slashed, stake reduced) and changes nothing else —
every other lookup and the map size are unchanged, and no SlashRecord is
appended because the implementation keeps no slash history. -/
theorem C3_slash_updates_only_registry (vm : ValidatorManager) (id : String)
    (reason : SlashReason) (now : Nat) (node : ValidatorNode)
    (h : GetValidator vm id = Except.ok node) :
    (SlashNode vm id reason now).1 = none
    ∧ (SlashNode vm id reason now).2.validators
        = vm.validators.map (fun p =>
            if p.1 == id then (p.1, slashValidator node reason now) else p)
    ∧ GetValidator (SlashNode vm id reason now).2 id
        = Except.ok (slashValidator node reason now)
    ∧ (slashValidator node reason now).Status = ValidatorStatusSlashed
    ∧ (∀ id2, id2 ≠ id →
        GetValidator (SlashNode vm id reason now).2 id2 = GetValidator vm id2)
    ∧ (SlashNode vm id reason now).2.validators.length = vm.validators.length := by
  obtain ⟨h1, h2, h3, h4, h5⟩ := slashNode_ok_lookup vm id reason now node h
  exact ⟨h1, h2, h3, rfl, h4, h5⟩

/-- C3 witness: the amended theorem at the one-entry registry. -/
theorem C3_witness :
    (SlashNode vmOne "v1" SlashReasonDowntime 7).1 = none
    ∧ GetValidator (SlashNode vmOne "v1" SlashReasonDowntime 7).2 "v1"
        = Except.ok (slashValidator nodeV1 SlashReasonDowntime 7)
    ∧ (slashValidator nodeV1 SlashReasonDowntime 7).Status = ValidatorStatusSlashed
    ∧ (SlashNode vmOne "v1" SlashReasonDowntime 7).2.validators.length
        = vmOne.validators.length :=
  ⟨(C3_slash_updates_only_registry vmOne "v1" SlashReasonDowntime 7 nodeV1 rfl).1,
   (C3_slash_updates_only_registry vmOne "v1" SlashReasonDowntime 7 nodeV1 rfl).2.2.1,
   (C3_slash_updates_only_registry vmOne "v1" SlashReasonDowntime 7 nodeV1 rfl).2.2.2.1,
   (C3_slash_updates_only_registry vmOne "v1" SlashReasonDowntime 7 nodeV1 rfl).2.2.2.2.2⟩

/-- C5: the slash amount is stake/2 for double-signing, stake/4 for an
invalid block, stake/10 for downtime, stake/2 for equivocation and
stake/10 for any other cause (truncating division); a successful slash
stores the node with status slashed and the reduced stake; and the stored
stake is either at least MinValidatorStake or exactly 0 (forced to 0 when
the reduction lands below the minimum) — never a positive value below the
minimum, and the subtraction cannot go negative. -/
theorem C5_slash_amount_and_floor :
    (∀ s : Nat,
        calculateSlashAmount s SlashReasonDoubleSigning = s / 2
        ∧ calculateSlashAmount s SlashReasonInvalidBlock = s / 4
        ∧ calculateSlashAmount s SlashReasonDowntime = s / 10
        ∧ calculateSlashAmount s SlashReasonEquivocation = s / 2)
    ∧ (∀ (s : Nat) (r : SlashReason),
        r ≠ SlashReasonDoubleSigning → r ≠ SlashReasonDowntime →
        r ≠ SlashReasonInvalidBlock → r ≠ SlashReasonEquivocation →
        calculateSlashAmount s r = s / 10)
    ∧ (∀ (vm : ValidatorManager) (id : String) (reason : SlashReason) (now : Nat)
        (node : ValidatorNode), GetValidator vm id = Except.ok node →
          (SlashNode vm id reason now).1 = none
          ∧ GetValidator (SlashNode vm id reason now).2 id
              = Except.ok (slashValidator node reason now))
    ∧ (∀ (node : ValidatorNode) (reason : SlashReason) (now : Nat),
        (slashValidator node reason now).Status = ValidatorStatusSlashed
        ∧ (slashValidator node reason now).StakeAmount
            = (if node.StakeAmount - calculateSlashAmount node.StakeAmount reason
                  < MinValidatorStake
               then 0
               else node.StakeAmount - calculateSlashAmount node.StakeAmount reason)
        ∧ ((slashValidator node reason now).StakeAmount = 0
            ∨ MinValidatorStake ≤ (slashValidator node reason now).StakeAmount)) := by
  refine ⟨?_, ?_, ?_, ?_⟩
  · intro s
    refine ⟨rfl, ?_, ?_, ?_⟩
    · simp [calculateSlashAmount, SlashReasonInvalidBlock, SlashReasonDoubleSigning,
        SlashReasonDowntime]
    · simp [calculateSlashAmount, SlashReasonDowntime, SlashReasonDoubleSigning]
    · simp [calculateSlashAmount, SlashReasonEquivocation, SlashReasonDoubleSigning,
        SlashReasonDowntime, SlashReasonInvalidBlock]
  · intro s r h1 h2 h3 h4
    simp [calculateSlashAmount, h1, h2, h3, h4]
  · intro vm id reason now node h
    obtain ⟨h1, _, h3, _, _⟩ := slashNode_ok_lookup vm id reason now node h
    exact ⟨h1, h3⟩
  · intro node reason now
    refine ⟨rfl, rfl, ?_⟩
    by_cases hlt : node.StakeAmount - calculateSlashAmount node.StakeAmount reason
        < MinValidatorStake
    · left
      simp [slashValidator, hlt]
    · right
      simp only [slashValidator, if_neg hlt]
      exact Nat.not_lt.mp hlt

/-- C5 witness: the theorem at a 100000-stake validator — double-signing
halves the stake, an unknown cause takes the default tenth, the slash is
stored, and the floor disjunction holds at the stored node. -/
theorem C5_witness :
    calculateSlashAmount 100000 SlashReasonDoubleSigning = 100000 / 2
    ∧ calculateSlashAmount 100000 "bribery" = 100000 / 10
    ∧ ((SlashNode vmOne "v1" SlashReasonDoubleSigning 7).1 = none
        ∧ GetValidator (SlashNode vmOne "v1" SlashReasonDoubleSigning 7).2 "v1"
            = Except.ok (slashValidator nodeV1 SlashReasonDoubleSigning 7))
    ∧ ((slashValidator nodeV1 SlashReasonDoubleSigning 7).StakeAmount = 0
        ∨ MinValidatorStake ≤ (slashValidator nodeV1 SlashReasonDoubleSigning 7).StakeAmount) :=
  ⟨(C5_slash_amount_and_floor.1 100000).1,
   C5_slash_amount_and_floor.2.1 100000 "bribery"
     (by decide) (by decide) (by decide) (by decide),
   C5_slash_amount_and_floor.2.2.1 vmOne "v1" SlashReasonDoubleSigning 7 nodeV1 rfl,
   (C5_slash_amount_and_floor.2.2.2 nodeV1 SlashReasonDoubleSigning 7).2.2⟩

/-- Helper: folding the wrapping uint64 addition equals the exact sum
reduced modulo 2^64. -/
theorem foldl_wrap_eq_mod (l : List Nat) (acc : Nat) :
    l.foldl (fun a s => (a + s) % U64) (acc % U64) = (acc + l.sum) % U64 := by
  induction l generalizing acc with
  | nil => simp
  | cons x rest ih =>
      simp only [List.foldl_cons, List.sum_cons]
      rw [Nat.mod_add_mod, ih (acc + x), Nat.add_assoc]

/-- Helper: the uint64 active-stake total of the code is the exact total
reduced modulo 2^64. -/
theorem getTotalStake_eq_mod (vm : ValidatorManager) :
    GetTotalStake vm = specTotalActiveStake vm % U64 := by
  have h := foldl_wrap_eq_mod ((GetActiveValidators vm).map (fun v => v.StakeAmount)) 0
  rw [Nat.zero_mod, Nat.zero_add, List.foldl_map] at h
  exact h

/-- Helper: the reward of a registered validator, as the code computes it. -/
theorem calculateRewards_ok (vm : ValidatorManager) (nodeID : String)
    (v : ValidatorNode) (h : GetValidator vm nodeID = Except.ok v) :
    CalculateRewards vm nodeID
      = CalculateValidatorReward v.StakeAmount (GetTotalStake vm) fixedBlockReward := by
  unfold CalculateRewards
  rw [h]

/-- Helper: when neither the product nor the sum can wrap, the code's
reward agrees with the specification's exact formula. -/
theorem calculateRewards_noWrap (vm : ValidatorManager) (nodeID : String)
    (v : ValidatorNode) (h : GetValidator vm nodeID = Except.ok v)
    (hsum : specTotalActiveStake vm < U64)
    (hmul : v.StakeAmount * fixedBlockReward < U64) :
    CalculateRewards vm nodeID = specCalculateReward vm nodeID := by
  have hs : specCalculateReward vm nodeID
      = if specTotalActiveStake vm = 0 then 0
        else v.StakeAmount * fixedBlockReward / specTotalActiveStake vm := by
    unfold specCalculateReward
    rw [h]
  have ht : GetTotalStake vm = specTotalActiveStake vm := by
    rw [getTotalStake_eq_mod vm, Nat.mod_eq_of_lt hsum]
  rw [calculateRewards_ok vm nodeID v h, hs, ht]
  unfold CalculateValidatorReward
  by_cases hz : specTotalActiveStake vm = 0
  · simp [hz]
  · rw [if_neg hz, if_neg hz, Nat.mod_eq_of_lt hmul]

/-- A validator with the directly registerable uint64 stake 2^61. -/
def nodeBig : ValidatorNode :=
  { ID := "big", Address := Address.zero, StakeAmount := 2 ^ 61,
    Status := ValidatorStatusActive, Commission := 0, CreatedAt := 0,
    UpdatedAt := 0, Description := "", Website := "" }

/-- The registry after registering nodeBig into an empty manager. -/
def vmBig : ValidatorManager := (RegisterNode NewValidatorManager nodeBig 0).2

/-- C8 counterexample: registering a single validator with stake 2^61 (a
legal uint64 stake, one register call away) makes the code return reward 0
— the uint64 product stake*1000 = 125 * 2^64 wraps to 0 — while the
claimed exact formula stake * 1000 / totalActiveStake gives 1000, so the
claim's formula does not describe the code on this registry state. -/
theorem C8_counterexample :
    (RegisterNode NewValidatorManager nodeBig 0).1 = none
    ∧ CalculateRewards vmBig "big" = 0
    ∧ specCalculateReward vmBig "big" = fixedBlockReward
    ∧ CalculateRewards vmBig "big" ≠ specCalculateReward vmBig "big" := by
  refine ⟨rfl, by decide, by decide, by decide⟩

/-- C8 amended: calculateReward returns 0 for an unknown ID and whenever
the (wrapped) total active stake is 0; for a registered validator it
returns stake * 1000 / totalActiveStake computed in uint64 arithmetic —
the product and the running active-stake sum wrap modulo 2^64 — which
agrees with the exact truncating-division formula whenever
stake * 1000 < 2^64 and the exact active-stake sum is below 2^64. -/
theorem C8_reward_formula_wrapped (vm : ValidatorManager) (nodeID : String) :
    (GetValidator vm nodeID = Except.error (RegError.validatorNotFound nodeID) →
      CalculateRewards vm nodeID = 0)
    ∧ (∀ v, GetValidator vm nodeID = Except.ok v →
        CalculateRewards vm nodeID
          = CalculateValidatorReward v.StakeAmount (GetTotalStake vm) fixedBlockReward)
    ∧ (GetTotalStake vm = 0 → CalculateRewards vm nodeID = 0)
    ∧ GetTotalStake vm = specTotalActiveStake vm % U64
    ∧ (∀ v, GetValidator vm nodeID = Except.ok v →
        specTotalActiveStake vm < U64 → v.StakeAmount * fixedBlockReward < U64 →
        CalculateRewards vm nodeID = specCalculateReward vm nodeID) := by
  refine ⟨?_, ?_, ?_, getTotalStake_eq_mod vm, ?_⟩
  · intro h
    unfold CalculateRewards
    rw [h]
  · intro v h
    exact calculateRewards_ok vm nodeID v h
  · intro h0
    unfold CalculateRewards
    cases hg : GetValidator vm nodeID with
    | error e => rfl
    | ok v =>
        rw [h0]
        unfold CalculateValidatorReward
        simp
  · intro v h hsum hmul
    exact calculateRewards_noWrap vm nodeID v h hsum hmul

/-- Two active validators staked 30000 and 60000. -/
def nodeA : ValidatorNode := demoValidator "A"

/-- The 60000-stake validator B. -/
def nodeB : ValidatorNode := { demoValidator "B" with StakeAmount := 60000 }

/-- A registry with exactly the active validators A (30000) and B (60000). -/
def vmAB : ValidatorManager := ⟨[("A", nodeA), ("B", nodeB)]⟩

/-- C8 witness: on the two-validator registry the theorem's no-wrap clause
applies, and the concrete rewards are the stake-proportional truncated
values 333 and 666 of the 1000 block reward; an unknown ID gets 0. -/
theorem C8_witness :
    CalculateRewards vmAB "A" = specCalculateReward vmAB "A"
    ∧ CalculateRewards vmAB "nobody" = 0
    ∧ CalculateRewards vmAB "A" = 333
    ∧ CalculateRewards vmAB "B" = 666 :=
  ⟨(C8_reward_formula_wrapped vmAB "A").2.2.2.2 nodeA rfl (by decide) (by decide),
   (C8_reward_formula_wrapped vmAB "nobody").1 rfl,
   by decide, by decide⟩

/-- The big validator after deregistration-style status change: not
active, stake 2^61. -/
def nodeBigInactive : ValidatorNode := { nodeBig with Status := ValidatorStatusInactive }

/-- A minimally staked active validator. -/
def nodeSmall : ValidatorNode :=
  { ID := "small", Address := Address.zero, StakeAmount := 28846,
    Status := ValidatorStatusActive, Commission := 0, CreatedAt := 0,
    UpdatedAt := 0, Description := "", Website := "" }

/-- Registry with the inactive 2^61-stake validator and one small active
validator. -/
def vmInact : ValidatorManager := ⟨[("big", nodeBigInactive), ("small", nodeSmall)]⟩

/-- C9 counterexample: for the registered non-active validator with stake
2^61 the code returns 0 — the uint64 product wraps — while the claim's
exact formula stake * 1000 / totalActiveStake (the total being the 28846 of
the only active validator) gives a value far above the block reward; the
claim's universally stated formula therefore fails on this registry
state. -/
theorem C9_counterexample :
    GetValidator vmInact "big" = Except.ok nodeBigInactive
    ∧ nodeBigInactive.Status ≠ ValidatorStatusActive
    ∧ specTotalActiveStake vmInact = 28846
    ∧ CalculateRewards vmInact "big" = 0
    ∧ fixedBlockReward < specCalculateReward vmInact "big"
    ∧ CalculateRewards vmInact "big" ≠ specCalculateReward vmInact "big" := by
  refine ⟨rfl, by decide, by decide, by decide, by decide, by decide⟩

/-- The rich validator nodeRich (stake 100000). -/
def nodeRich : ValidatorNode := { demoValidator "rich" with StakeAmount := 100000 }

/-- The stored form of nodeRich after register (timestamps 0, active) and
deregister at time 2 (inactive). -/
def richStored : ValidatorNode :=
  { nodeRich with CreatedAt := 0, UpdatedAt := 2, Status := ValidatorStatusInactive }

/-- A minimally staked candidate used alongside nodeRich. -/
def nodePauper : ValidatorNode :=
  { ID := "pauper", Address := Address.zero, StakeAmount := 28846,
    Status := ValidatorStatusActive, Commission := 0, CreatedAt := 0,
    UpdatedAt := 0, Description := "", Website := "" }

/-- Registry reached through the public operations: register rich (100000)
and pauper (28846), then deregister rich — rich is now inactive but keeps
its stake, and the active total is only 28846. -/
def vmExceed : ValidatorManager :=
  (DeregisterNode
    (RegisterNode (RegisterNode NewValidatorManager nodeRich 0).2 nodePauper 1).2
    "rich" 2).2

/-- C9 amended: for a registered non-active validator the code computes
stake * 1000 / totalActiveStake in uint64 arithmetic, where the total
ranges over the active validators only — the non-active validator itself
is excluded — and this agrees with the exact formula when neither the
product nor the sum wraps (stake * 1000 < 2^64 and exact total < 2^64);
consequently a non-active validator whose stake exceeds the active total
is paid more than the whole block reward, as the reachable registry
vmExceed shows. -/
theorem C9_inactive_reward_exclusion :
    (∀ (vm : ValidatorManager) (id : String) (v : ValidatorNode),
        GetValidator vm id = Except.ok v → v.Status ≠ ValidatorStatusActive →
          CalculateRewards vm id
            = CalculateValidatorReward v.StakeAmount (GetTotalStake vm) fixedBlockReward
          ∧ v ∉ GetActiveValidators vm
          ∧ (specTotalActiveStake vm < U64 → v.StakeAmount * fixedBlockReward < U64 →
              CalculateRewards vm id = specCalculateReward vm id))
    ∧ fixedBlockReward < CalculateRewards vmExceed "rich" := by
  refine ⟨?_, by decide⟩
  intro vm id v h hst
  refine ⟨calculateRewards_ok vm id v h, ?_,
    fun hsum hmul => calculateRewards_noWrap vm id v h hsum hmul⟩
  intro hmem
  unfold GetActiveValidators at hmem
  exact hst (eq_of_beq (List.mem_filter.mp hmem).2)

/-- C9 witness: the theorem at the reachable registry vmExceed — the
stored inactive rich validator is excluded from the active set, the
no-wrap clause applies, and its reward 3466 strictly exceeds the 1000
block reward. -/
theorem C9_witness :
    richStored ∉ GetActiveValidators vmExceed
    ∧ CalculateRewards vmExceed "rich" = specCalculateReward vmExceed "rich"
    ∧ CalculateRewards vmExceed "rich" = 3466
    ∧ fixedBlockReward < CalculateRewards vmExceed "rich" :=
  ⟨(C9_inactive_reward_exclusion.1 vmExceed "rich" richStored rfl (by decide)).2.1,
   (C9_inactive_reward_exclusion.1 vmExceed "rich" richStored rfl (by decide)).2.2
     (by decide) (by decide),
   by decide,
   C9_inactive_reward_exclusion.2⟩

end UE
